import Mathlib

/-! Verification development for the query-construction core of the
`leagueregistrar` repository (`src/leagueregistrar/dbutils.py` and
`src/leagueregistrar/types.py`): the `MISSING` omission sentinel, the
predicate-expression language, the list/dict text codecs, the
WHERE/INSERT/SET statement builders and the pure (query-preparation and
row post-processing) phases of `db.get` / `db.remove` / `db.edit`.

Python's dynamic values are embedded as the inductive `Val`; expression
objects (`or_`, `and_`, `is_not`, `is_`, the collations, `substr`,
`nocase_substr`, `between`, the comparisons and `custom`) are themselves
runtime values, hence constructors of `Val`.  Fallible Python code paths
(`TypeError` from iterating a non-iterable, `AttributeError` from calling
`.format` on a non-expression, `ValueError` from `dict(...)`) are embedded
as `Option`/`Except` failures. -/

namespace LeagueRegistrar

/-- Python runtime values as used by `dbutils`.  `missing` is the
`types.MISSING` sentinel class; `none_` is Python `None`; `dict` is an
insertion-ordered association list (Python 3.7+ dict ordering); the
remaining constructors are the Expression objects of `dbutils`
(`orE` = `or_`, `andE` = `and_`, `isNot` = `is_not`, `isE` = `is_`,
`gt`/`gte`/`lt`/`lte` = `greater_than`/`greater_than_or_equal`/
`less_than`/`less_than_or_equal`). -/
inductive Val where
  | none_ : Val
  | missing : Val
  | int : Int → Val
  | str : String → Val
  | list : List Val → Val
  | dict : List (Val × Val) → Val
  | orE : List Val → Val
  | andE : List Val → Val
  | isNot : Val → Val
  | isE : Val → Val
  | collateNocase : Val → Val
  | collateBinary : Val → Val
  | collateRtrim : Val → Val
  | substr : Val → Val
  | nocaseSubstr : Val → Val
  | between : Val → Val → Val
  | gt : Val → Val
  | gte : Val → Val
  | lt : Val → Val
  | lte : Val → Val
  | custom : String → List Val → Val

/-- Python identity test `v is types.MISSING`. -/
def isMissingB : Val → Bool
  | .missing => true
  | _ => false

/-- Python `isinstance(v, types.Expression)`. -/
def Val.isExpression : Val → Bool
  | .none_ | .missing | .int _ | .str _ | .list _ | .dict _ => false
  | _ => true

/-- Python truthiness (`bool(v)`) for the embedded values.  The `MISSING`
sentinel is a class object, hence truthy; expression instances are truthy. -/
def Val.truthy : Val → Bool
  | .none_ => false
  | .missing => true
  | .int n => !(n == 0)
  | .str s => !(s.data.isEmpty)
  | .list xs => !(xs.isEmpty)
  | .dict xs => !(xs.isEmpty)
  | _ => true

/-- An optional value transform; `none` embeds the `types.MISSING` default
of the `compiler=`/`decompiler=` parameters. -/
abbrev Compiler := Option (Val → Val)

/-- `dbutils._compile(value, compiler)`:
`value if compiler is types.MISSING else compiler(value)`. -/
def _compile (value : Val) (compiler : Compiler) : Val :=
  match compiler with
  | none => value
  | some c => c value

/-- `dbutils._decompile(value, decompiler)`:
`value if decompiler is types.MISSING else decompiler(value)`. -/
def _decompile (value : Val) (decompiler : Compiler) : Val :=
  match decompiler with
  | none => value
  | some d => d value

/-- The `.value` attribute of an Expression object compared against
`types.MISSING` (the `p.expr.value is types.MISSING` test in
`db._build_where`).  For `or_`/`and_`, `__init__` sets `value = MISSING`
exactly when every argument is `MISSING` (`all` of an empty tuple is true);
`between` stores a two-element list and `custom` a tuple, never `MISSING`. -/
def exprValueIsMissing : Val → Bool
  | .orE vs | .andE vs => vs.all isMissingB
  | .isNot v | .isE v | .collateNocase v | .collateBinary v | .collateRtrim v
  | .substr v | .nocaseSubstr v | .gt v | .gte v | .lt v | .lte v => isMissingB v
  | _ => false

/-- Python iteration over a value, as used by `parameters.extend(p)` in
`db._build_where`: lists iterate their elements, strings their characters,
dicts their keys; anything else raises `TypeError` (`none`). -/
def pyIter : Val → Option (List Val)
  | .list xs => some xs
  | .str s => some (s.data.map fun c => Val.str (String.mk [c]))
  | .dict xs => some (xs.map Prod.fst)
  | _ => none

/-- Any list has positive auto-generated size (used for termination of the
mutually recursive renderer below). -/
theorem sizeOf_list_pos (l : List Val) : 0 < sizeOf l := by
  cases l <;> simp_arith

mutual

/-- `Expression.format(column, compiler)` for each expression variant of
`dbutils`, returning the SQL fragment together with the raw second
component of the returned tuple (a Python list for most variants, but the
*bare* compiled value for `greater_than` and for `between`, exactly as in
the source).  `none` embeds a raised exception: iterating a `MISSING`
`self.value` in `or_`/`and_` (`TypeError`), or calling `format` on a
non-Expression value (`AttributeError`). -/
def format : Val → String → Compiler → Option (String × Val)
  | .orE vs, column, compiler =>
      -- `or_.format`: db._build_where([db.part(column, v, compiler) for v in self.value]);
      -- when `self.value is MISSING` (all arguments missing), iteration raises TypeError
      if vs.all isMissingB then none
      else (buildWhereVals column compiler vs).map fun sp =>
        (String.intercalate " OR " sp.1, Val.list sp.2)
  | .andE vs, column, compiler =>
      if vs.all isMissingB then none
      else (buildWhereVals column compiler vs).map fun sp =>
        (String.intercalate " AND " sp.1, Val.list sp.2)
  | .isNot v, column, compiler =>
      -- `is_not.format`: delegates (without any MISSING check) when the inner
      -- value is an Expression, else renders `col IS NOT ?`
      if v.isExpression then
        (format v column compiler).map fun sp => ("NOT " ++ sp.1, sp.2)
      else some (column ++ " IS NOT ?", Val.list [_compile v compiler])
  | .isE v, column, compiler =>
      some (column ++ " IS ?", Val.list [_compile v compiler])
  | .collateNocase v, column, compiler =>
      some (column ++ " IS ? COLLATE NOCASE", Val.list [_compile v compiler])
  | .collateBinary v, column, compiler =>
      some (column ++ " IS ? COLLATE BINARY", Val.list [_compile v compiler])
  | .collateRtrim v, column, compiler =>
      some (column ++ " IS ? COLLATE RTRIM", Val.list [_compile v compiler])
  | .substr v, column, compiler =>
      some ("instr(" ++ column ++ ", ?)", Val.list [_compile v compiler])
  | .nocaseSubstr v, column, compiler =>
      some (column ++ " LIKE '%'||?||'%' ESCAPE '\\'", Val.list [_compile v compiler])
  | .between a b, column, compiler =>
      -- `between.format`: second component is `_compile(self.value, compiler)`
      -- where `self.value = [a, b]` (the compiler receives the pair)
      some (column ++ " BETWEEN ? AND ?", _compile (Val.list [a, b]) compiler)
  | .gt v, column, compiler =>
      -- `greater_than.format` returns `_compile(self.value, compiler)` WITHOUT
      -- wrapping it in a list (source line 173), unlike its three siblings
      some (column ++ " > ?", _compile v compiler)
  | .gte v, column, compiler =>
      some (column ++ " >= ?", Val.list [_compile v compiler])
  | .lt v, column, compiler =>
      some (column ++ " < ?", Val.list [_compile v compiler])
  | .lte v, column, compiler =>
      some (column ++ " <= ?", Val.list [_compile v compiler])
  | .custom e ps, _, _ =>
      -- `custom.format` returns `self.value = (expr, list(params))` verbatim
      some (e, Val.list ps)
  | _, _, _ => none
termination_by v _ _ => sizeOf v
decreasing_by all_goals simp_wf

/-- The loop body of `db._build_where` applied to the homogeneous part list
`[db.part(column, v, compiler) for v in values]` built by `or_`/`and_`:
skip `MISSING` values and Expressions whose `.value` is `MISSING`, wrap
non-Expressions in `is_`, format, append the fragment and extend the
parameters.  `none` embeds a raised exception (from `format` or from
`parameters.extend` on a non-iterable). -/
def buildWhereVals (column : String) (compiler : Compiler) :
    List Val → Option (List String × List Val)
  | [] => some ([], [])
  | v :: rest =>
      if isMissingB v then buildWhereVals column compiler rest
      else if v.isExpression && exprValueIsMissing v then buildWhereVals column compiler rest
      else
        match (if v.isExpression then format v column compiler
               else format (Val.isE v) column compiler) with
        | none => none
        | some sp =>
          match pyIter sp.2 with
          | none => none
          | some ps =>
            match buildWhereVals column compiler rest with
            | none => none
            | some rec_ => some (sp.1 :: rec_.1, ps ++ rec_.2)
termination_by vs => sizeOf vs
decreasing_by all_goals (simp_wf; all_goals first
  | omega
  | (have h := sizeOf_list_pos rest; omega))

end

/-- `db.part`: a descriptor bundling a column name, a value-or-expression and
optional compiler/decompiler (both defaulting to `types.MISSING`, embedded as
`none`). -/
structure Part where
  column : String
  expr : Val
  compiler : Compiler
  decompiler : Compiler

/-- Python truthiness of a list (`if parameters:`). -/
def truthyList (l : List α) : Bool := !l.isEmpty

/-- `db._build_where(parts)` over a heterogeneous part list: skip parts whose
`expr is MISSING` or whose Expression `.value is MISSING`; wrap non-Expression
values in `is_`; format and collect `(statements, parameters)`.  `none` embeds
a raised exception (from `format`, or `TypeError` from
`parameters.extend` on a non-iterable second component). -/
def buildWhere : List Part → Option (List String × List Val)
  | [] => some ([], [])
  | p :: rest =>
      if isMissingB p.expr then buildWhere rest
      else if p.expr.isExpression && exprValueIsMissing p.expr then buildWhere rest
      else
        match (if p.expr.isExpression then format p.expr p.column p.compiler
               else format (Val.isE p.expr) p.column p.compiler) with
        | none => none
        | some sp =>
          match pyIter sp.2 with
          | none => none
          | some ps =>
            match buildWhere rest with
            | none => none
            | some rec_ => some (sp.1 :: rec_.1, ps ++ rec_.2)

/-- `db._build_insert(parts)`: the two comprehensions filtered on
`p.expr is not types.MISSING`, yielding the column list and the compiled
value list. -/
def buildInsert (parts : List Part) : List String × List Val :=
  ((parts.filter fun p => !isMissingB p.expr).map fun p => p.column,
   (parts.filter fun p => !isMissingB p.expr).map fun p => _compile p.expr p.compiler)

/-- `db._build_set(parts)`: like `_build_insert` but rendering `col=?`. -/
def buildSet (parts : List Part) : List String × List Val :=
  ((parts.filter fun p => !isMissingB p.expr).map fun p => p.column ++ "=?",
   (parts.filter fun p => !isMissingB p.expr).map fun p => _compile p.expr p.compiler)

/-- `db._decompile_all(values, parts)`:
`[_decompile(v, p.decompiler) for v, p in zip(values, parts)]`. -/
def decompileAll (values : List Val) (parts : List Part) : List Val :=
  (values.zip parts).map fun vp => _decompile vp.1 vp.2.decompiler

/-- The query-preparation phase of `db.get` (everything before the database
interaction): the rendered SQL text together with the bind-parameter list of
the `args` tuple (`none` in the second component when `args` is the
one-element tuple `(query,)`). -/
def getQueryPrep (table : String) (parts : List Part) (matchall : Bool) :
    Option (String × Option (List Val)) :=
  let joinwith := if matchall then " AND " else " OR "
  match buildWhere parts with
  | none => none
  | some sp =>
    if truthyList sp.2 then
      some ("SELECT * FROM " ++ table ++ " WHERE " ++ String.intercalate joinwith sp.1,
            some sp.2)
    else
      some ("SELECT * FROM " ++ table, none)

/-- The query-preparation phase of `db.remove`, identical to `db.get`'s with
`DELETE FROM` in place of `SELECT * FROM`. -/
def removeQueryPrep (table : String) (parts : List Part) (matchall : Bool) :
    Option (String × Option (List Val)) :=
  let joinwith := if matchall then " AND " else " OR "
  match buildWhere parts with
  | none => none
  | some sp =>
    if truthyList sp.2 then
      some ("DELETE FROM " ++ table ++ " WHERE " ++ String.intercalate joinwith sp.1,
            some sp.2)
    else
      some ("DELETE FROM " ++ table, none)

/-- Phase 1 of `db.edit`: build the SET clause and raise
`ValueError("no changes are being made")` when both lists are empty; the
returned pair is what the curried `_edit` closure captures. -/
def edit (parts : List Part) : Except String (List String × List Val) :=
  let sp := buildSet parts
  if !truthyList sp.2 && !truthyList sp.1 then
    Except.error "no changes are being made"
  else
    Except.ok (sp.1, sp.2)

/-- The query-preparation phase of `db.edit`'s inner `_edit` (phase 2), given
the captured `set_statements`/`set_parameters` and the fresh WHERE parts:
renders the UPDATE statement and the bind parameters actually passed to
`execute` (`[*set_parameters, *where_parameters]` when a WHERE clause is
emitted, else `tuple(set_parameters)`). -/
def editApplyPrep (table : String) (setStatements : List String)
    (setParameters : List Val) (parts : List Part) (matchall : Bool) :
    Option (String × List Val) :=
  match buildWhere parts with
  | none => none
  | some sp =>
    let joinwith := if matchall then " AND " else " OR "
    let parameters := setParameters ++ sp.2
    if truthyList sp.2 then
      some ("UPDATE " ++ table ++ " SET " ++ String.intercalate "," setStatements ++
            " WHERE " ++ String.intercalate joinwith sp.1, parameters)
    else
      some ("UPDATE " ++ table ++ " SET " ++ String.intercalate "," setStatements,
            setParameters)

/-- The post-fetch phase of `db.get` (everything after the database
interaction), applied to the fetched rows: return `None` on an empty result;
raise the shape-mismatch `ValueError` when the first row's arity differs from
the part count; otherwise decompile each row (wrapping through `builder` when
one was supplied) and return `final[0]` when `batchsize == 1`, else the whole
list. -/
def getPost (parts : List Part) (batchsize : Option Int)
    (builder : Option (List Val → Val)) (result : List (List Val)) :
    Except String Val :=
  match result with
  | [] => Except.ok Val.none_
  | r0 :: _ =>
    if r0.length ≠ parts.length then
      Except.error ("insufficient number of parts provided; expected " ++
        toString r0.length ++ ", got " ++ toString parts.length)
    else
      let final := match builder with
        | none => result.map fun dataset => Val.list (decompileAll dataset parts)
        | some b => result.map fun dataset => b (decompileAll dataset parts)
      if batchsize = some 1 then Except.ok (final.headD Val.none_)
      else Except.ok (Val.list final)

/-! ### The list/dict text codecs (`ListCompiler`, `ListDecompiler`,
`DictCompiler`, `DictDecompiler` and `types.Decompiler.format`).

Python strings are manipulated through their character lists (`String.data`);
`str.split(chr(n))` is embedded as `splitOnChar`, `chr(n).join` as `joinSep`
and the slice `v[1:-1]` as `stripEnds`. -/

/-- The `chr(130)` item separator of the composite text encoding. -/
def ITEM_SEP : Char := Char.ofNat 130

/-- The `chr(131)` key/value separator of the dict encoding. -/
def KV_SEP : Char := Char.ofNat 131

/-- The `chr(134)` item-wrap opening marker. -/
def WRAP_OPEN : Char := Char.ofNat 134

/-- The `chr(135)` item-wrap closing marker. -/
def WRAP_CLOSE : Char := Char.ofNat 135

/-- Python `sep.join(pieces)` for a single-character separator. -/
def joinSep (c : Char) : List (List Char) → List Char
  | [] => []
  | [p] => p
  | p :: q :: rest => p ++ c :: joinSep c (q :: rest)

/-- Python `s.split(sep)` for a single-character separator (no maxsplit):
always returns at least one piece; consecutive separators yield empty
pieces. -/
def splitOnChar (c : Char) : List Char → List (List Char)
  | [] => [[]]
  | x :: xs =>
      match splitOnChar c xs with
      | [] => [[]]
      | y :: ys => if x = c then [] :: y :: ys else (x :: y) :: ys

/-- The slice `v[1:-1]`: drop the first and the last character. -/
def stripEnds (l : List Char) : List Char := (l.drop 1).dropLast

/-- Python `str(v)` as interpolated by the codec f-strings.  The theorems
below only exercise it on strings and ints; the `repr` of other values is
abbreviated. -/
def pyStr : Val → String
  | .str s => s
  | .int n => toString n
  | .none_ => "None"
  | _ => "<repr>"

/-- The Python builtin `str` used as an element-coercion type of a
decompiler: `str(v)` as a `Val` transform. -/
def pyStrType : Val → Val := fun v => Val.str (pyStr v)

/-- `types.Decompiler.format(*values)` with the coercion types `self._types`
given at construction: return `values` unchanged when no types were
configured; otherwise extend the type list with its last element up to the
value count and apply the types positionally (`[t(v) for t, v in
zip(types, values)]`; `zip` truncates to the shorter list when fewer values
than types were given). -/
def decompilerFormat (ts : List (Val → Val)) (values : List Val) : List Val :=
  match ts with
  | [] => values
  | t0 :: rest =>
    let numTypes := (t0 :: rest).length
    let numValues := values.length
    let types := if numValues > numTypes then
        (t0 :: rest) ++ List.replicate (numValues - numTypes) ((t0 :: rest).getLastD t0)
      else t0 :: rest
    (types.zip values).map fun tv => tv.1 tv.2

/-- `ListCompiler.__call__(value)`:
`value and chr(130).join([f"{chr(134)}{v}{chr(135)}" for v in value])` —
the falsy short-circuit returns the (empty) list itself, not a string. -/
def ListCompiler (value : List Val) : Val :=
  if (Val.list value).truthy then
    Val.str (String.mk (joinSep ITEM_SEP
      (value.map fun v => WRAP_OPEN :: (pyStr v).data ++ [WRAP_CLOSE])))
  else Val.list value

/-- `ListDecompiler.__call__(value)`:
`value and [self.format(v[1:-1])[0] for v in value.split(chr(130))]` — the
falsy short-circuit returns the falsy input itself; a truthy non-string input
has no `.split` (`AttributeError`, embedded as `none`). -/
def ListDecompiler (ts : List (Val → Val)) (value : Val) : Option Val :=
  if value.truthy then
    match value with
    | .str s => some (Val.list ((splitOnChar ITEM_SEP s.data).map fun v =>
        (decompilerFormat ts [Val.str (String.mk (stripEnds v))]).headD Val.none_))
    | _ => none
  else some value

/-- `DictCompiler.__call__(value)`:
`value and chr(130).join([f"{chr(134)}{k}{chr(131)}{v}{chr(135)}" for k, v in
value.items()])`. -/
def DictCompiler (value : List (Val × Val)) : Val :=
  if (Val.dict value).truthy then
    Val.str (String.mk (joinSep ITEM_SEP
      (value.map fun kv =>
        WRAP_OPEN :: (pyStr kv.1).data ++ KV_SEP :: (pyStr kv.2).data ++ [WRAP_CLOSE])))
  else Val.dict value

mutual

/-- Python `==` on the embedded values (structural equality), used by dict
key lookup. -/
def Val.beq : Val → Val → Bool
  | .none_, .none_ => true
  | .missing, .missing => true
  | .int n, .int m => n == m
  | .str s, .str t => s == t
  | .list xs, .list ys => beqValList xs ys
  | .dict xs, .dict ys => beqValPairs xs ys
  | .orE xs, .orE ys => beqValList xs ys
  | .andE xs, .andE ys => beqValList xs ys
  | .isNot a, .isNot b => Val.beq a b
  | .isE a, .isE b => Val.beq a b
  | .collateNocase a, .collateNocase b => Val.beq a b
  | .collateBinary a, .collateBinary b => Val.beq a b
  | .collateRtrim a, .collateRtrim b => Val.beq a b
  | .substr a, .substr b => Val.beq a b
  | .nocaseSubstr a, .nocaseSubstr b => Val.beq a b
  | .between a b, .between a2 b2 => Val.beq a a2 && Val.beq b b2
  | .gt a, .gt b => Val.beq a b
  | .gte a, .gte b => Val.beq a b
  | .lt a, .lt b => Val.beq a b
  | .lte a, .lte b => Val.beq a b
  | .custom e ps, .custom f qs => e == f && beqValList ps qs
  | _, _ => false

/-- Elementwise `Val.beq` on lists. -/
def beqValList : List Val → List Val → Bool
  | [], [] => true
  | x :: xs, y :: ys => Val.beq x y && beqValList xs ys
  | _, _ => false

/-- Elementwise `Val.beq` on pair lists. -/
def beqValPairs : List (Val × Val) → List (Val × Val) → Bool
  | [], [] => true
  | kv :: xs, kv2 :: ys => Val.beq kv.1 kv2.1 && Val.beq kv.2 kv2.2 && beqValPairs xs ys
  | _, _ => false

end

/-- One step of Python `dict(pairs)` construction: assigning to an existing
key (by `==`) replaces the stored value in place (keeping the original key
object and position); a fresh key is appended. -/
def pyDictInsert (acc : List (Val × Val)) (k v : Val) : List (Val × Val) :=
  if acc.any fun kv => Val.beq kv.1 k then
    acc.map fun kv => if Val.beq kv.1 k then (kv.1, v) else kv
  else acc ++ [(k, v)]

/-- Python `dict(items)` over a list of item sequences: each item must have
exactly two elements, else `ValueError` (`none`); items are inserted left to
right. -/
def pyDictAux (acc : List (Val × Val)) : List (List Val) → Option (List (Val × Val))
  | [] => some acc
  | [k, v] :: rest => pyDictAux (pyDictInsert acc k v) rest
  | _ => none

/-- `dict([...])` as used by `DictDecompiler`. -/
def pyDict (items : List (List Val)) : Option (List (Val × Val)) :=
  pyDictAux [] items

/-- `DictDecompiler.__call__(value)`:
`value and dict([self.format(*(v[1:-1]).split(chr(131))) for v in
value.split(chr(130))])`. -/
def DictDecompiler (ts : List (Val → Val)) (value : Val) : Option Val :=
  if value.truthy then
    match value with
    | .str s =>
      (pyDict ((splitOnChar ITEM_SEP s.data).map fun v =>
        decompilerFormat ts ((splitOnChar KV_SEP (stripEnds v)).map fun p =>
          Val.str (String.mk p)))).map Val.dict
    | _ => none
  else some value

/-- Modelled from the spec (C4's reading of the decoder): split on
`ITEM_SEP`, strip the wrap markers, and apply the configured coercion types
*positionally*, extending the final type across any extra elements — element
`i` receives type `t_min(i,k)`.  Stated only for comparison with the actual
`ListDecompiler`. -/
def claimedListDecode (ts : List (Val → Val)) (s : String) : List Val :=
  (splitOnChar ITEM_SEP s.data).enum.map fun iv =>
    (ts.getD iv.1 (ts.getLastD id)) (Val.str (String.mk (stripEnds iv.2)))

/-- A concrete element-coercion sending every value to the string `"A"`
(used to observe which coercion type the decoder applies). -/
def coerceA : Val → Val := fun _ => Val.str "A"

/-- A concrete element-coercion sending every value to the string `"B"`. -/
def coerceB : Val → Val := fun _ => Val.str "B"

/-! ### Marker-occurrence predicates (for the C6 invariant). -/

mutual

/-- Whether the `MISSING` sentinel occurs anywhere inside a value (including
inside expression objects, lists, dict keys/values and `custom` params). -/
def occursMissing : Val → Bool
  | .missing => true
  | .none_ | .int _ | .str _ => false
  | .list xs => occursMissingList xs
  | .dict xs => occursMissingPairs xs
  | .orE vs => occursMissingList vs
  | .andE vs => occursMissingList vs
  | .isNot v => occursMissing v
  | .isE v => occursMissing v
  | .collateNocase v => occursMissing v
  | .collateBinary v => occursMissing v
  | .collateRtrim v => occursMissing v
  | .substr v => occursMissing v
  | .nocaseSubstr v => occursMissing v
  | .between a b => occursMissing a || occursMissing b
  | .gt v => occursMissing v
  | .gte v => occursMissing v
  | .lt v => occursMissing v
  | .lte v => occursMissing v
  | .custom _ ps => occursMissingList ps

/-- `occursMissing` over a list. -/
def occursMissingList : List Val → Bool
  | [] => false
  | v :: rest => occursMissing v || occursMissingList rest

/-- `occursMissing` over a pair list. -/
def occursMissingPairs : List (Val × Val) → Bool
  | [] => false
  | kv :: rest => occursMissing kv.1 || occursMissing kv.2 || occursMissingPairs rest

end

mutual

/-- Sufficient condition for a value at a *checked* position (a descriptor's
value, or a direct sub-value of `or_`/`and_`) not to leak the sentinel into
rendered parameters: the bare marker and marker-valued expressions are
dropped by the builder's checks; anything else must be render-safe. -/
def checkedSafe (v : Val) : Bool :=
  if isMissingB v then true
  else if v.isExpression then exprValueIsMissing v || renderSafe v
  else !occursMissing v

/-- Sufficient condition for an expression that *will* be formatted (no
marker check applies any more) not to emit the sentinel: `is_not` delegates
unchecked, so its expression operand must itself be render-safe; all other
variants compile their inner value(s), which therefore must not contain the
marker; combinator sub-values return to checked positions. -/
def renderSafe : Val → Bool
  | .orE vs | .andE vs => checkedSafeList vs
  | .isNot v => if v.isExpression then renderSafe v else !occursMissing v
  | .isE v | .collateNocase v | .collateBinary v | .collateRtrim v
  | .substr v | .nocaseSubstr v | .gt v | .gte v | .lt v | .lte v => !occursMissing v
  | .between a b => !occursMissing a && !occursMissing b
  | .custom _ ps => !occursMissingList ps
  | _ => true

/-- `checkedSafe` over a combinator's sub-value list. -/
def checkedSafeList : List Val → Bool
  | [] => true
  | v :: rest => checkedSafe v && checkedSafeList rest

end

/-- A compiler that maps marker-free values to marker-free values (the
absent compiler, i.e. the identity, trivially qualifies). -/
def compilerSafe : Compiler → Prop
  | none => True
  | some c => ∀ v, occursMissing v = false → occursMissing (c v) = false

/-! ## Helper lemmas -/

/-- A list is truthy in Python exactly when it is nonempty. -/
theorem truthyList_iff (l : List α) : truthyList l = true ↔ l ≠ [] := by
  cases l <;> simp [truthyList]

/-- Applying a decompiler with at least one coercion type to a single value
applies the first type. -/
theorem decompilerFormat_single (t0 : Val → Val) (ts : List (Val → Val)) (x : Val) :
    decompilerFormat (t0 :: ts) [x] = [t0 x] := by
  simp [decompilerFormat, Nat.lt_one_iff]

/-! ## C10 -/

/-- C10: when the executed query returns zero rows, `db.get` returns `None`
(not an empty sequence), for every batchsize and builder; the arity check is
skipped entirely, so any descriptor list (mismatched or not) goes
undetected. -/
theorem empty_result_returns_none :
    ∀ (parts : List Part) (batchsize : Option Int) (builder : Option (List Val → Val)),
      getPost parts batchsize builder [] = Except.ok Val.none_ ∧
      (Except.ok Val.none_ : Except String Val) ≠ Except.ok (Val.list []) := by
  intro parts batchsize builder
  exact ⟨rfl, by simp⟩

/-! ## C9 -/

/-- C9: when the rows fetched by `db.get` (all of one arity, as SQL
guarantees) have an arity different from the descriptor count — in either
direction — the operation fails with the shape-mismatch `ValueError` naming
the expected (row arity) and actual (descriptor) counts, and never reaches
the decompilation step. -/
theorem arity_mismatch_error :
    ∀ (parts : List Part) (batchsize : Option Int) (builder : Option (List Val → Val))
      (r0 : List Val) (rest : List (List Val)),
      (∀ r ∈ r0 :: rest, r.length = r0.length) →
      r0.length ≠ parts.length →
      getPost parts batchsize builder (r0 :: rest) =
        Except.error ("insufficient number of parts provided; expected " ++
          toString r0.length ++ ", got " ++ toString parts.length) := by
  intro parts batchsize builder r0 rest _ hmismatch
  simp [getPost, hmismatch]

/-- Witness for C9 at a concrete input: one fetched row of arity 1 against
zero descriptors. -/
theorem arity_mismatch_error_witness :
    getPost [] none none [[Val.int 1]] =
      Except.error ("insufficient number of parts provided; expected " ++
        toString (1 : Nat) ++ ", got " ++ toString (0 : Nat)) :=
  arity_mismatch_error [] none none [Val.int 1] [] (by simp) (by decide)

/-! ## C2 -/

/-- C2 (failing on `greater_than`): `gte`/`lt`/`lte` return the fragment
`col {op} ?` with the one-element parameter list `[compile(v)]` as claimed,
but `greater_than.format` returns the *bare* compiled value (not a
one-element list), so `db._build_where` subsequently fails with `TypeError`
on `parameters.extend` for a scalar value. -/
theorem greater_than_param_not_wrapped :
    format (Val.gt (Val.int 5)) "col" none = some ("col" ++ " > ?", Val.int 5) ∧
    format (Val.gte (Val.int 5)) "col" none =
      some ("col" ++ " >= ?", Val.list [Val.int 5]) ∧
    format (Val.lt (Val.int 5)) "col" none =
      some ("col" ++ " < ?", Val.list [Val.int 5]) ∧
    format (Val.lte (Val.int 5)) "col" none =
      some ("col" ++ " <= ?", Val.list [Val.int 5]) ∧
    Val.int 5 ≠ Val.list [Val.int 5] ∧
    buildWhere [⟨"col", Val.gt (Val.int 5), none, none⟩] = none := by
  refine ⟨?_, ?_, ?_, ?_, by simp, ?_⟩ <;>
    simp [buildWhere, format, Val.isExpression, exprValueIsMissing, isMissingB, pyIter, _compile]

/-! ## C3 -/

/-- C3 fails: the falsy short-circuit `value and ...` returns the falsy
*input itself*, so the empty list compiles to the empty list, not to the
empty string. -/
theorem empty_codec_counterexample :
    ListCompiler [] = Val.list [] ∧ Val.list [] ≠ Val.str "" := by
  exact ⟨by simp [ListCompiler, Val.truthy], by simp⟩

/-- C3 amended: the compilers return the empty sequence/mapping *unchanged*
(the falsy short-circuit yields the falsy operand itself, not an empty
string), and the decompilers likewise return the empty string — or the
falsy compiled empties — unchanged, for every codec configuration. -/
theorem falsy_codec_passthrough :
    ListCompiler [] = Val.list [] ∧ DictCompiler [] = Val.dict [] ∧
    (∀ ts, ListDecompiler ts (Val.str "") = some (Val.str "")) ∧
    (∀ ts, DictDecompiler ts (Val.str "") = some (Val.str "")) ∧
    (∀ ts, ListDecompiler ts (Val.list []) = some (Val.list [])) ∧
    (∀ ts, DictDecompiler ts (Val.dict []) = some (Val.dict [])) := by
  refine ⟨?_, ?_, ?_, ?_, ?_, ?_⟩ <;>
    simp [ListCompiler, DictCompiler, ListDecompiler, DictDecompiler, Val.truthy]

/-! ## C7 -/

/-- C7 fails on the fragment text: `is_not.format` renders
`f"NOT {stmt}"` with no parentheses, so `is_not(is_(5))` yields
`NOT col IS ?`, not `NOT (col IS ?)`. -/
theorem is_not_render_counterexample :
    format (Val.isNot (Val.isE (Val.int 5))) "col" none =
      some ("NOT " ++ ("col" ++ " IS ?"), Val.list [Val.int 5]) ∧
    "NOT " ++ ("col" ++ " IS ?") ≠ "NOT (col IS ?)" := by
  constructor
  · simp [format, Val.isExpression, _compile]
  · decide

/-- C7 amended: for every column, `is_not(is_(5))` renders as
`NOT col IS ?` (no parentheses) with parameter list `[5]`, and `is_not(5)`
(non-expression) renders as `col IS NOT ?` with parameter list `[5]`. -/
theorem is_not_render :
    ∀ col : String,
      format (Val.isNot (Val.isE (Val.int 5))) col none =
        some ("NOT " ++ (col ++ " IS ?"), Val.list [Val.int 5]) ∧
      format (Val.isNot (Val.int 5)) col none =
        some (col ++ " IS NOT ?", Val.list [Val.int 5]) := by
  intro col
  constructor <;> simp [format, Val.isExpression, _compile]

/-! ## C1 -/

/-- C1 fails: the source gates the WHERE clause on `if parameters:` — not on
a surviving fragment.  A `custom` expression with no params survives
`_build_where` (fragment `x IS NULL`, empty parameter list), yet `db.get`
renders a full-table statement with no WHERE clause. -/
theorem custom_fragment_without_params_emits_no_where :
    buildWhere [⟨"c", Val.custom "x IS NULL" [], none, none⟩] =
      some (["x IS NULL"], []) ∧
    getQueryPrep "t" [⟨"c", Val.custom "x IS NULL" [], none, none⟩] true =
      some ("SELECT * FROM " ++ "t", none) ∧
    removeQueryPrep "t" [⟨"c", Val.custom "x IS NULL" [], none, none⟩] true =
      some ("DELETE FROM " ++ "t", none) ∧
    editApplyPrep "t" ["a=?"] [Val.int 1]
        [⟨"c", Val.custom "x IS NULL" [], none, none⟩] true =
      some ("UPDATE " ++ "t" ++ " SET " ++ String.intercalate "," ["a=?"], [Val.int 1]) := by
  refine ⟨?_, ?_, ?_, ?_⟩ <;>
    simp [buildWhere, getQueryPrep, removeQueryPrep, editApplyPrep, format,
          Val.isExpression, exprValueIsMissing, isMissingB, pyIter, truthyList]

/-- C1 amended: for `get`, `remove` and the second phase of `edit`, the
rendered statement carries a WHERE clause if and only if the *parameter*
list produced by `_build_where` is nonempty; a surviving fragment whose
parameter list is empty is discarded and the statement targets the entire
table. -/
theorem where_clause_iff_nonempty_parameters :
    ∀ (table : String) (parts : List Part) (matchall : Bool)
      (ss : List String) (ps : List Val),
      buildWhere parts = some (ss, ps) →
      (ps ≠ [] → getQueryPrep table parts matchall =
        some ("SELECT * FROM " ++ table ++ " WHERE " ++
          String.intercalate (if matchall then " AND " else " OR ") ss, some ps)) ∧
      (ps = [] → getQueryPrep table parts matchall =
        some ("SELECT * FROM " ++ table, none)) ∧
      (ps ≠ [] → removeQueryPrep table parts matchall =
        some ("DELETE FROM " ++ table ++ " WHERE " ++
          String.intercalate (if matchall then " AND " else " OR ") ss, some ps)) ∧
      (ps = [] → removeQueryPrep table parts matchall =
        some ("DELETE FROM " ++ table, none)) ∧
      (∀ sst sps, ps ≠ [] → editApplyPrep table sst sps parts matchall =
        some ("UPDATE " ++ table ++ " SET " ++ String.intercalate "," sst ++
          " WHERE " ++ String.intercalate (if matchall then " AND " else " OR ") ss,
          sps ++ ps)) ∧
      (∀ sst sps, ps = [] → editApplyPrep table sst sps parts matchall =
        some ("UPDATE " ++ table ++ " SET " ++ String.intercalate "," sst, sps)) := by
  intro table parts matchall ss ps h
  refine ⟨fun hne => ?_, fun heq => ?_, fun hne => ?_, fun heq => ?_,
          fun sst sps hne => ?_, fun sst sps heq => ?_⟩ <;>
    simp [getQueryPrep, removeQueryPrep, editApplyPrep, h, truthyList] <;>
    first
      | (cases ps with
          | nil => exact absurd rfl hne
          | cons q qs => simp)
      | (subst heq; simp)

/-- Witness for C1's amended theorem at a concrete input: one plain equality
descriptor produces one parameter and hence a WHERE clause. -/
theorem where_clause_iff_nonempty_parameters_witness :
    getQueryPrep "t" [⟨"c", Val.int 5, none, none⟩] true =
      some ("SELECT * FROM " ++ "t" ++ " WHERE " ++
        String.intercalate (if true then " AND " else " OR ") ["c IS ?"],
        some [Val.int 5]) := by
  have h : buildWhere [⟨"c", Val.int 5, none, none⟩] = some (["c IS ?"], [Val.int 5]) := by
    simp [buildWhere, format, Val.isExpression, exprValueIsMissing, isMissingB, pyIter, _compile]
  exact (where_clause_iff_nonempty_parameters "t" _ true _ _ h).1 (by simp)

/-! ## C4 -/

/-- C4 fails: `ListDecompiler` calls `Decompiler.format` on one element at a
time, so `zip(types, values)` truncates the configured type list to its
*first* element for every item — the types are not applied positionally
across elements.  With coercions `[A, B]` and two encoded elements, both
elements receive `A`, while the claimed positional decoding yields `B` for
the second. -/
theorem first_type_applied_counterexample :
    ListDecompiler [coerceA, coerceB]
      (Val.str (String.mk [WRAP_OPEN, 'a', WRAP_CLOSE, ITEM_SEP,
                           WRAP_OPEN, 'b', WRAP_CLOSE])) =
      some (Val.list [Val.str "A", Val.str "A"]) ∧
    claimedListDecode [coerceA, coerceB]
      (String.mk [WRAP_OPEN, 'a', WRAP_CLOSE, ITEM_SEP,
                  WRAP_OPEN, 'b', WRAP_CLOSE]) =
      [Val.str "A", Val.str "B"] ∧
    Val.str "A" ≠ Val.str "B" := by
  refine ⟨?_, ?_, by simp⟩ <;>
    simp [ListDecompiler, claimedListDecode, Val.truthy, splitOnChar, ITEM_SEP,
          WRAP_OPEN, WRAP_CLOSE, decompilerFormat, stripEnds, coerceA, coerceB,
          List.enum]

/-- C4 amended: for every decoder configured with at least one coercion
type and every truthy encoded string, decoding splits on the item separator
(code point 130), strips the first and last character of each piece, and
applies the *first* configured type to every element (the remaining types
are never reached, because each element is formatted in its own call whose
single value is zipped against the type list). -/
theorem list_decoder_applies_first_type :
    ∀ (t0 : Val → Val) (ts : List (Val → Val)) (s : String), s.data ≠ [] →
      ListDecompiler (t0 :: ts) (Val.str s) =
        some (Val.list ((splitOnChar ITEM_SEP s.data).map fun v =>
          t0 (Val.str (String.mk (stripEnds v))))) := by
  intro t0 ts s h
  simp [ListDecompiler, Val.truthy, h, decompilerFormat_single]

/-- Witness for C4's amended theorem at a concrete input. -/
theorem list_decoder_applies_first_type_witness :
    ListDecompiler [coerceB] (Val.str (String.mk [WRAP_OPEN, 'a', WRAP_CLOSE])) =
      some (Val.list ((splitOnChar ITEM_SEP
        (String.mk [WRAP_OPEN, 'a', WRAP_CLOSE]).data).map fun v =>
          coerceB (Val.str (String.mk (stripEnds v))))) :=
  list_decoder_applies_first_type coerceB []
    (String.mk [WRAP_OPEN, 'a', WRAP_CLOSE]) (by simp)

/-! ## C8 -/

/-- C8 fails for `_build_insert`/`_build_set`: they filter only on
`p.expr is not MISSING`, so a descriptor whose value is an *expression
resolving to the marker* (here `is_(MISSING)`) is kept — the insert column
list is nonempty and `edit` does not raise. -/
theorem build_insert_keeps_marker_expression :
    buildInsert [⟨"c", Val.isE Val.missing, none, none⟩] =
      (["c"], [Val.isE Val.missing]) ∧
    (["c"], [Val.isE Val.missing]) ≠ (([], []) : List String × List Val) ∧
    edit [⟨"c", Val.isE Val.missing, none, none⟩] =
      Except.ok (["c=?"], [Val.isE Val.missing]) := by
  refine ⟨?_, by simp, ?_⟩ <;>
    simp [buildInsert, edit, buildSet, isMissingB, _compile, truthyList]

/-- C8 amended: `_build_where` drops both bare-marker descriptors and
descriptors whose expression value resolved to the marker, returning empty
fragment and parameter lists; but `_build_insert`/`_build_set` return empty
lists (and `edit` raises the "no changes" error before any database
interaction) only when every descriptor's value is *literally* the
marker. -/
theorem all_omitted_builders :
    (∀ parts : List Part,
      (∀ p ∈ parts, p.expr = Val.missing ∨
        (p.expr.isExpression = true ∧ exprValueIsMissing p.expr = true)) →
      buildWhere parts = some ([], [])) ∧
    (∀ parts : List Part, (∀ p ∈ parts, p.expr = Val.missing) →
      buildInsert parts = ([], []) ∧ buildSet parts = ([], []) ∧
      edit parts = Except.error "no changes are being made") := by
  constructor
  · intro parts h
    induction parts with
    | nil => rfl
    | cons p rest ih =>
      have hp := h p (by simp)
      have hrest := ih fun q hq => h q (by simp [hq])
      rcases hp with hmiss | ⟨hexpr, hval⟩
      · simp [buildWhere, hmiss, isMissingB, hrest]
      · have : isMissingB p.expr = false := by
          cases hx : p.expr <;> simp_all [Val.isExpression, isMissingB]
        simp [buildWhere, this, hexpr, hval, hrest]
  · intro parts h
    have hfilter : parts.filter (fun p => !isMissingB p.expr) = [] := by
      rw [List.filter_eq_nil_iff]
      intro p hp
      simp [h p hp, isMissingB]
    refine ⟨?_, ?_, ?_⟩ <;> simp [buildInsert, buildSet, edit, hfilter, truthyList]

/-- Witness for C8's amended theorem at concrete inputs: a bare-marker
descriptor and an `is_(MISSING)` descriptor for the WHERE side, and a
single bare-marker descriptor for the INSERT/SET/edit side. -/
theorem all_omitted_builders_witness :
    buildWhere [⟨"a", Val.missing, none, none⟩, ⟨"b", Val.isE Val.missing, none, none⟩] =
      some ([], []) ∧
    edit [⟨"a", Val.missing, none, none⟩] =
      Except.error "no changes are being made" := by
  constructor
  · exact all_omitted_builders.1 _ (by
      intro p hp
      simp only [List.mem_cons, List.not_mem_nil, or_false] at hp
      rcases hp with hp | hp <;> subst hp <;>
        simp [Val.isExpression, exprValueIsMissing, isMissingB])
  · exact (all_omitted_builders.2 [⟨"a", Val.missing, none, none⟩] (by
      intro p hp; simp at hp; subst hp; rfl)).2.2

/-! ## C5: codec round trip -/

/-- A joined list whose first piece is nonempty is nonempty. -/
theorem joinSep_cons_ne_nil (c x : Char) (xs : List Char) (rest : List (List Char)) :
    joinSep c ((x :: xs) :: rest) ≠ [] := by
  cases rest <;> simp [joinSep]

/-- Python `split` always returns at least one piece. -/
theorem splitOnChar_ne_nil (c : Char) (l : List Char) : splitOnChar c l ≠ [] := by
  induction l with
  | nil => simp [splitOnChar]
  | cons x xs ih =>
    rw [splitOnChar]
    cases h : splitOnChar c xs with
    | nil => simp
    | cons y ys => by_cases hx : x = c <;> simp [hx]

/-- Splitting a separator-free list returns it whole. -/
theorem splitOnChar_of_not_mem (c : Char) (l : List Char) (h : c ∉ l) :
    splitOnChar c l = [l] := by
  induction l with
  | nil => rfl
  | cons x xs ih =>
    have hx : ¬x = c := fun he => h (he ▸ List.mem_cons_self x xs)
    have hxs : c ∉ xs := fun hm => h (List.mem_cons_of_mem x hm)
    rw [splitOnChar, ih hxs]
    simp [hx]

/-- Splitting peels a separator-free prefix before an explicit separator. -/
theorem splitOnChar_append_cons (c : Char) (p rest : List Char) (h : c ∉ p) :
    splitOnChar c (p ++ c :: rest) = p :: splitOnChar c rest := by
  induction p with
  | nil =>
    rw [List.nil_append, splitOnChar]
    cases hr : splitOnChar c rest with
    | nil => exact absurd hr (splitOnChar_ne_nil c rest)
    | cons y ys => simp
  | cons x xs ih =>
    have hx : ¬x = c := fun he => h (he ▸ List.mem_cons_self x xs)
    have hxs : c ∉ xs := fun hm => h (List.mem_cons_of_mem x hm)
    rw [List.cons_append, splitOnChar, ih hxs]
    simp [hx]

/-- `split` is a left inverse of `join` on nonempty lists of separator-free
pieces. -/
theorem splitOnChar_joinSep (c : Char) (ps : List (List Char)) (hne : ps ≠ [])
    (hall : ∀ p ∈ ps, c ∉ p) : splitOnChar c (joinSep c ps) = ps := by
  induction ps with
  | nil => exact absurd rfl hne
  | cons p rest ih =>
    cases rest with
    | nil => simp [joinSep, splitOnChar_of_not_mem c p (hall p (by simp))]
    | cons q rest2 =>
      rw [show joinSep c (p :: q :: rest2) = p ++ c :: joinSep c (q :: rest2) from rfl]
      rw [splitOnChar_append_cons c p _ (hall p (by simp))]
      rw [ih (by simp) fun r hr => hall r (by simp [hr])]

/-- Stripping the first and last character undoes the item wrapping. -/
theorem stripEnds_wrap (x y : Char) (l : List Char) :
    stripEnds ((x :: l) ++ [y]) = l := by
  simp [stripEnds]

/-- A decompiler with exactly two coercion types applies them pairwise to a
two-element value list. -/
theorem decompilerFormat_pair (t0 t1 : Val → Val) (a b : Val) :
    decompilerFormat [t0, t1] [a, b] = [t0 a, t1 b] := by
  simp [decompilerFormat]

set_option maxHeartbeats 2000000 in
/-- Python `==` on embedded strings agrees with string equality. -/
theorem val_beq_str (a b : String) : Val.beq (Val.str a) (Val.str b) = (a == b) := by
  simp [Val.beq]

/-- Inserting a fresh key into a Python dict appends it. -/
theorem pyDictInsert_fresh (acc : List (Val × Val)) (k v : Val)
    (h : ∀ a ∈ acc, Val.beq a.1 k = false) :
    pyDictInsert acc k v = acc ++ [(k, v)] := by
  unfold pyDictInsert
  have : (acc.any fun kv => Val.beq kv.1 k) = false := by
    simp only [List.any_eq_false]
    intro kv hkv
    simp [h kv hkv]
  simp [this]

/-- `dict(...)` over two-element items with pairwise-distinct fresh keys
appends them in order. -/
theorem pyDictAux_append (ps : List (Val × Val)) (acc : List (Val × Val))
    (hfresh : ∀ q ∈ ps, ∀ a ∈ acc, Val.beq a.1 q.1 = false)
    (hnodup : ps.Pairwise fun a b => Val.beq a.1 b.1 = false) :
    pyDictAux acc (ps.map fun q => [q.1, q.2]) = some (acc ++ ps) := by
  induction ps generalizing acc with
  | nil => simp [pyDictAux]
  | cons q rest ih =>
    rw [List.map_cons, pyDictAux,
        pyDictInsert_fresh acc q.1 q.2 (hfresh q (by simp))]
    rw [ih (acc ++ [q]) ?_ (List.Pairwise.sublist (List.sublist_cons_self q rest) hnodup)]
    · simp
    · intro r hr a ha
      rcases List.mem_append.mp ha with ha | ha
      · exact hfresh r (by simp [hr]) a ha
      · have : a = q := by simpa using ha
        subst this
        exact (List.pairwise_cons.mp hnodup).1 r hr

/-- C5: decompiling the compiled encoding with the string-coercion
decompilers recovers the original value exactly — for every list of strings
free of the reserved control characters (code points 130, 134, 135),
including the empty list, and for every string-keyed/string-valued mapping
(reserved characters additionally including code point 131) with distinct
keys, including the empty mapping. -/
theorem codec_round_trip :
    (∀ l : List String,
      (∀ s ∈ l, ∀ ch ∈ s.data, ch ≠ ITEM_SEP ∧ ch ≠ WRAP_OPEN ∧ ch ≠ WRAP_CLOSE) →
      ListDecompiler [pyStrType] (ListCompiler (l.map Val.str)) =
        some (Val.list (l.map Val.str))) ∧
    (∀ d : List (String × String),
      (d.map Prod.fst).Nodup →
      (∀ kv ∈ d, ∀ ch ∈ (kv.1 ++ kv.2 : String).data,
        ch ≠ ITEM_SEP ∧ ch ≠ KV_SEP ∧ ch ≠ WRAP_OPEN ∧ ch ≠ WRAP_CLOSE) →
      DictDecompiler [pyStrType, pyStrType]
          (DictCompiler (d.map fun kv => (Val.str kv.1, Val.str kv.2))) =
        some (Val.dict (d.map fun kv => (Val.str kv.1, Val.str kv.2)))) := by
  constructor
  · intro l hres
    cases l with
    | nil => simp [ListCompiler, ListDecompiler, Val.truthy]
    | cons s0 ls =>
      rw [ListCompiler]
      have hpieces :
          ((s0 :: ls).map Val.str).map (fun v => WRAP_OPEN :: (pyStr v).data ++ [WRAP_CLOSE]) =
          (s0 :: ls).map fun s => (WRAP_OPEN :: s.data) ++ [WRAP_CLOSE] := by
        rw [List.map_map]; rfl
      rw [if_pos (by simp [Val.truthy]), hpieces]
      rw [ListDecompiler]
      rw [if_pos (by
        simp only [Val.truthy, List.map_cons]
        have := joinSep_cons_ne_nil ITEM_SEP WRAP_OPEN (s0.data ++ [WRAP_CLOSE])
          (ls.map fun s => (WRAP_OPEN :: s.data) ++ [WRAP_CLOSE])
        simpa [List.isEmpty_iff] using this)]
      rw [splitOnChar_joinSep ITEM_SEP _ (by simp) ?_]
      · rw [List.map_map]
        congr 1
        congr 1
        refine List.map_congr_left fun s hs => ?_
        show (decompilerFormat [pyStrType]
          [Val.str (String.mk (stripEnds ((WRAP_OPEN :: s.data) ++ [WRAP_CLOSE])))]).headD
            Val.none_ = Val.str s
        rw [stripEnds_wrap, decompilerFormat_single]
        rfl
      · intro p hp
        rcases List.mem_map.mp hp with ⟨s, hs, rfl⟩
        intro hmem
        rcases List.mem_append.mp hmem with hmem | hmem
        · rcases List.mem_cons.mp hmem with hmem | hmem
          · exact absurd hmem.symm (by decide)
          · exact ((hres s hs ITEM_SEP hmem).1 rfl).elim
        · have : ITEM_SEP = WRAP_CLOSE := by simpa using hmem
          exact absurd this (by decide)
  · intro d hnodup hres
    cases d with
    | nil => simp [DictCompiler, DictDecompiler, Val.truthy]
    | cons kv0 ds =>
      have hkey : ∀ kv ∈ kv0 :: ds, ∀ ch ∈ kv.1.data,
          ch ≠ ITEM_SEP ∧ ch ≠ KV_SEP ∧ ch ≠ WRAP_OPEN ∧ ch ≠ WRAP_CLOSE := by
        intro kv hkv ch hch
        exact hres kv hkv ch (by
          show ch ∈ kv.1.data ++ kv.2.data
          exact List.mem_append.mpr (Or.inl hch))
      have hval : ∀ kv ∈ kv0 :: ds, ∀ ch ∈ kv.2.data,
          ch ≠ ITEM_SEP ∧ ch ≠ KV_SEP ∧ ch ≠ WRAP_OPEN ∧ ch ≠ WRAP_CLOSE := by
        intro kv hkv ch hch
        exact hres kv hkv ch (by
          show ch ∈ kv.1.data ++ kv.2.data
          exact List.mem_append.mpr (Or.inr hch))
      rw [DictCompiler]
      have hpieces :
          ((kv0 :: ds).map fun kv => (Val.str kv.1, Val.str kv.2)).map
            (fun kv => WRAP_OPEN :: (pyStr kv.1).data ++ KV_SEP :: (pyStr kv.2).data ++
              [WRAP_CLOSE]) =
          (kv0 :: ds).map fun kv =>
            (WRAP_OPEN :: (kv.1.data ++ KV_SEP :: kv.2.data)) ++ [WRAP_CLOSE] := by
        rw [List.map_map]
        refine List.map_congr_left fun kv _ => ?_
        show WRAP_OPEN :: kv.1.data ++ KV_SEP :: kv.2.data ++ [WRAP_CLOSE] =
          (WRAP_OPEN :: (kv.1.data ++ KV_SEP :: kv.2.data)) ++ [WRAP_CLOSE]
        simp
      rw [if_pos (by simp [Val.truthy]), hpieces]
      rw [DictDecompiler]
      rw [if_pos (by
        simp only [Val.truthy, List.map_cons]
        have := joinSep_cons_ne_nil ITEM_SEP WRAP_OPEN
          ((kv0.1.data ++ KV_SEP :: kv0.2.data) ++ [WRAP_CLOSE])
          (ds.map fun kv => (WRAP_OPEN :: (kv.1.data ++ KV_SEP :: kv.2.data)) ++ [WRAP_CLOSE])
        simpa [List.isEmpty_iff] using this)]
      rw [splitOnChar_joinSep ITEM_SEP _ (by simp) ?_]
      · rw [List.map_map]
        have hitems :
            (kv0 :: ds).map ((fun v => decompilerFormat [pyStrType, pyStrType]
                ((splitOnChar KV_SEP (stripEnds v)).map fun p => Val.str (String.mk p))) ∘
              fun kv => (WRAP_OPEN :: (kv.1.data ++ KV_SEP :: kv.2.data)) ++ [WRAP_CLOSE]) =
            ((kv0 :: ds).map fun kv => (Val.str kv.1, Val.str kv.2)).map fun q => [q.1, q.2] := by
          rw [List.map_map]
          refine List.map_congr_left fun kv hkv => ?_
          show decompilerFormat [pyStrType, pyStrType]
              ((splitOnChar KV_SEP
                (stripEnds ((WRAP_OPEN :: (kv.1.data ++ KV_SEP :: kv.2.data)) ++
                  [WRAP_CLOSE]))).map fun p => Val.str (String.mk p)) =
            [Val.str kv.1, Val.str kv.2]
          rw [stripEnds_wrap,
              splitOnChar_append_cons KV_SEP kv.1.data kv.2.data
                (fun hm => ((hkey kv hkv KV_SEP hm).2.1 rfl).elim),
              splitOnChar_of_not_mem KV_SEP kv.2.data
                (fun hm => ((hval kv hkv KV_SEP hm).2.1 rfl).elim)]
          rw [List.map_cons, List.map_cons, List.map_nil, decompilerFormat_pair]
          rfl
        rw [hitems, pyDict,
            pyDictAux_append _ [] (by simp) ?_]
        · rfl
        · have hp0 : (kv0 :: ds).Pairwise (fun a b => a.1 ≠ b.1) := by
            have h2 := hnodup
            rw [List.Nodup, List.pairwise_map] at h2
            exact h2
          rw [List.pairwise_map]
          refine hp0.imp fun hab => ?_
          rw [val_beq_str]
          exact beq_eq_false_iff_ne.mpr hab
      · intro p hp
        rcases List.mem_map.mp hp with ⟨kv, hkv, rfl⟩
        intro hmem
        rcases List.mem_append.mp hmem with hmem | hmem
        · rcases List.mem_cons.mp hmem with hmem | hmem
          · exact absurd hmem.symm (by decide)
          · rcases List.mem_append.mp hmem with hmem | hmem
            · exact ((hkey kv hkv ITEM_SEP hmem).1 rfl).elim
            · rcases List.mem_cons.mp hmem with hmem | hmem
              · exact absurd hmem.symm (by decide)
              · exact ((hval kv hkv ITEM_SEP hmem).1 rfl).elim
        · have : ITEM_SEP = WRAP_CLOSE := by simpa using hmem
          exact absurd this (by decide)

/-- Witness for C5 at concrete inputs: a two-element list (one element
empty) and a one-entry mapping. -/
theorem codec_round_trip_witness :
    ListDecompiler [pyStrType] (ListCompiler (["ab", ""].map Val.str)) =
      some (Val.list (["ab", ""].map Val.str)) ∧
    DictDecompiler [pyStrType, pyStrType]
        (DictCompiler ([("k", "v")].map fun kv => (Val.str kv.1, Val.str kv.2))) =
      some (Val.dict ([("k", "v")].map fun kv => (Val.str kv.1, Val.str kv.2))) := by
  constructor
  · exact codec_round_trip.1 ["ab", ""] (by decide)
  · exact codec_round_trip.2 [("k", "v")] (by decide) (by decide)

/-! ## C6: the omitted marker and rendered parameters -/

/-- Compiling a marker-free value through a marker-safe compiler stays
marker-free. -/
theorem compile_safe (c : Compiler) (hc : compilerSafe c) (v : Val)
    (hv : occursMissing v = false) : occursMissing (_compile v c) = false := by
  cases c with
  | none => simpa [_compile] using hv
  | some f => exact hc v hv

/-- A singleton compiled parameter list is marker-free. -/
theorem wrapped_param_safe (v : Val) (c : Compiler) (hc : compilerSafe c)
    (hv : occursMissing v = false) :
    occursMissing (Val.list [_compile v c]) = false := by
  simp [occursMissing, occursMissingList, compile_safe c hc v hv]

/-- Marker-freeness distributes over list append. -/
theorem occursMissingList_append (a b : List Val) :
    occursMissingList (a ++ b) = (occursMissingList a || occursMissingList b) := by
  induction a with
  | nil => simp [occursMissingList]
  | cons x xs ih => simp [occursMissingList, ih, Bool.or_assoc]

/-- Characters wrapped as singleton strings are marker-free. -/
theorem occursMissingList_map_str (l : List Char) :
    occursMissingList (l.map fun ch => Val.str (String.mk [ch])) = false := by
  induction l with
  | nil => rfl
  | cons x xs ih => simp [occursMissingList, occursMissing, ih]

/-- The keys of a marker-free pair list are marker-free. -/
theorem occursMissingList_keys (xs : List (Val × Val))
    (h : occursMissingPairs xs = false) :
    occursMissingList (xs.map Prod.fst) = false := by
  induction xs with
  | nil => rfl
  | cons kv rest ih =>
    simp only [occursMissingPairs, Bool.or_eq_false_iff] at h
    simp [occursMissingList, h.1.1, ih h.2]

/-- Iterating a marker-free value yields marker-free elements. -/
theorem pyIter_safe (p : Val) (hp : occursMissing p = false) (ps : List Val)
    (h : pyIter p = some ps) : occursMissingList ps = false := by
  cases p <;> simp only [pyIter, Option.some.injEq, reduceCtorEq] at h
  case list xs =>
    subst h
    simpa [occursMissing] using hp
  case str s =>
    subst h
    exact occursMissingList_map_str s.data
  case dict xs =>
    subst h
    exact occursMissingList_keys xs (by simpa [occursMissing] using hp)

/-- A marker-free list does not contain the marker. -/
theorem not_mem_of_occursMissingList_false (ps : List Val)
    (h : occursMissingList ps = false) : Val.missing ∉ ps := by
  induction ps with
  | nil => simp
  | cons x xs ih =>
    simp only [occursMissingList, Bool.or_eq_false_iff] at h
    intro hmem
    rcases List.mem_cons.mp hmem with rfl | hmem
    · simp [occursMissing] at h
    · exact ih h.2 hmem

mutual

/-- A render-safe expression formatted with a marker-safe compiler produces
a marker-free raw parameter component. -/
theorem format_marker_safe : ∀ (e : Val) (col : String) (c : Compiler),
    renderSafe e = true → compilerSafe c → ∀ s p, format e col c = some (s, p) →
    occursMissing p = false
  | .orE vs, col, c, hs, hc, s, p, h => by
      simp only [format] at h
      split at h
      · exact absurd h (by simp)
      · rcases Option.map_eq_some'.mp h with ⟨sp, hbw, heq⟩
        obtain ⟨-, rfl⟩ := Prod.mk.injEq .. ▸ And.intro (congrArg Prod.fst heq.symm)
          (congrArg Prod.snd heq.symm)
        have hs2 : checkedSafeList vs = true := by simpa [renderSafe] using hs
        simpa [occursMissing] using
          buildWhereVals_marker_safe col c vs hs2 hc sp.1 sp.2 (by simpa using hbw)
  | .andE vs, col, c, hs, hc, s, p, h => by
      simp only [format] at h
      split at h
      · exact absurd h (by simp)
      · rcases Option.map_eq_some'.mp h with ⟨sp, hbw, heq⟩
        obtain ⟨-, rfl⟩ := Prod.mk.injEq .. ▸ And.intro (congrArg Prod.fst heq.symm)
          (congrArg Prod.snd heq.symm)
        have hs2 : checkedSafeList vs = true := by simpa [renderSafe] using hs
        simpa [occursMissing] using
          buildWhereVals_marker_safe col c vs hs2 hc sp.1 sp.2 (by simpa using hbw)
  | .isNot v, col, c, hs, hc, s, p, h => by
      simp only [format] at h
      split at h
      case isTrue hexpr =>
        rcases Option.map_eq_some'.mp h with ⟨sp, hf, heq⟩
        obtain ⟨-, rfl⟩ := Prod.mk.injEq .. ▸ And.intro (congrArg Prod.fst heq.symm)
          (congrArg Prod.snd heq.symm)
        have hs2 : renderSafe v = true := by simpa [renderSafe, hexpr] using hs
        exact format_marker_safe v col c hs2 hc sp.1 sp.2 (by simpa using hf)
      case isFalse hexpr =>
        obtain ⟨-, rfl⟩ := Prod.mk.injEq .. ▸ And.intro
          (congrArg Prod.fst (Option.some.inj h).symm)
          (congrArg Prod.snd (Option.some.inj h).symm)
        exact wrapped_param_safe v c hc (by simpa [renderSafe, hexpr] using hs)
  | .isE v, col, c, hs, hc, s, p, h => by
      simp only [format, Option.some.injEq, Prod.mk.injEq] at h
      rw [← h.2]
      exact wrapped_param_safe v c hc (by simpa [renderSafe] using hs)
  | .collateNocase v, col, c, hs, hc, s, p, h => by
      simp only [format, Option.some.injEq, Prod.mk.injEq] at h
      rw [← h.2]
      exact wrapped_param_safe v c hc (by simpa [renderSafe] using hs)
  | .collateBinary v, col, c, hs, hc, s, p, h => by
      simp only [format, Option.some.injEq, Prod.mk.injEq] at h
      rw [← h.2]
      exact wrapped_param_safe v c hc (by simpa [renderSafe] using hs)
  | .collateRtrim v, col, c, hs, hc, s, p, h => by
      simp only [format, Option.some.injEq, Prod.mk.injEq] at h
      rw [← h.2]
      exact wrapped_param_safe v c hc (by simpa [renderSafe] using hs)
  | .substr v, col, c, hs, hc, s, p, h => by
      simp only [format, Option.some.injEq, Prod.mk.injEq] at h
      rw [← h.2]
      exact wrapped_param_safe v c hc (by simpa [renderSafe] using hs)
  | .nocaseSubstr v, col, c, hs, hc, s, p, h => by
      simp only [format, Option.some.injEq, Prod.mk.injEq] at h
      rw [← h.2]
      exact wrapped_param_safe v c hc (by simpa [renderSafe] using hs)
  | .between a b, col, c, hs, hc, s, p, h => by
      simp only [format, Option.some.injEq, Prod.mk.injEq] at h
      rw [← h.2]
      have hab : occursMissing (Val.list [a, b]) = false := by
        have := hs
        simp only [renderSafe, Bool.and_eq_true, Bool.not_eq_true'] at this
        simp [occursMissing, occursMissingList, this.1, this.2]
      exact compile_safe c hc _ hab
  | .gt v, col, c, hs, hc, s, p, h => by
      simp only [format, Option.some.injEq, Prod.mk.injEq] at h
      rw [← h.2]
      exact compile_safe c hc v (by simpa [renderSafe] using hs)
  | .gte v, col, c, hs, hc, s, p, h => by
      simp only [format, Option.some.injEq, Prod.mk.injEq] at h
      rw [← h.2]
      exact wrapped_param_safe v c hc (by simpa [renderSafe] using hs)
  | .lt v, col, c, hs, hc, s, p, h => by
      simp only [format, Option.some.injEq, Prod.mk.injEq] at h
      rw [← h.2]
      exact wrapped_param_safe v c hc (by simpa [renderSafe] using hs)
  | .lte v, col, c, hs, hc, s, p, h => by
      simp only [format, Option.some.injEq, Prod.mk.injEq] at h
      rw [← h.2]
      exact wrapped_param_safe v c hc (by simpa [renderSafe] using hs)
  | .custom e ps, col, c, hs, hc, s, p, h => by
      simp only [format, Option.some.injEq, Prod.mk.injEq] at h
      rw [← h.2]
      simpa [renderSafe, occursMissing] using hs
  | .none_, col, c, hs, hc, s, p, h => by simp [format] at h
  | .missing, col, c, hs, hc, s, p, h => by simp [format] at h
  | .int n, col, c, hs, hc, s, p, h => by simp [format] at h
  | .str t, col, c, hs, hc, s, p, h => by simp [format] at h
  | .list xs, col, c, hs, hc, s, p, h => by simp [format] at h
  | .dict xs, col, c, hs, hc, s, p, h => by simp [format] at h
termination_by e _ _ => sizeOf e

/-- The homogeneous WHERE builder over checked-safe sub-values with a
marker-safe compiler never emits the marker. -/
theorem buildWhereVals_marker_safe : ∀ (col : String) (c : Compiler) (vs : List Val),
    checkedSafeList vs = true → compilerSafe c → ∀ ss ps,
    buildWhereVals col c vs = some (ss, ps) → occursMissingList ps = false
  | col, c, [], _, _, ss, ps, h => by
      simp only [buildWhereVals, Option.some.injEq, Prod.mk.injEq] at h
      rw [← h.2]; rfl
  | col, c, v :: rest, hs, hc, ss, ps, h => by
      have hsv : checkedSafe v = true ∧ checkedSafeList rest = true := by
        simpa [checkedSafeList, Bool.and_eq_true] using hs
      simp only [buildWhereVals] at h
      split at h
      · exact buildWhereVals_marker_safe col c rest hsv.2 hc ss ps h
      · split at h
        · exact buildWhereVals_marker_safe col c rest hsv.2 hc ss ps h
        · rename_i hmiss hskip
          split at h
          · exact absurd h (by simp)
          · rename_i sp hfmt
            split at h
            · exact absurd h (by simp)
            · rename_i ps1 hiter
              split at h
              · exact absurd h (by simp)
              · rename_i rec_ hrec
                simp only [Option.some.injEq, Prod.mk.injEq] at h
                rw [← h.2]
                have hp2 : occursMissing sp.2 = false := by
                  by_cases hexpr : v.isExpression = true
                  · have hval : exprValueIsMissing v = false := by
                      rcases hval : exprValueIsMissing v with _ | _
                      · rfl
                      · exact absurd (by simp [hexpr, hval]) hskip
                    have hrs : renderSafe v = true := by
                      have := hsv.1
                      rw [checkedSafe] at this
                      simp only [hmiss, if_false, hexpr, if_true, hval,
                        Bool.false_or] at this
                      exact this
                    exact format_marker_safe v col c hrs hc sp.1 sp.2
                      (by rw [← hfmt]; simp [hexpr])
                  · have hocc : occursMissing v = false := by
                      have := hsv.1
                      rw [checkedSafe] at this
                      simp only [hmiss, if_false, hexpr] at this
                      simpa using this
                    have hrs : renderSafe (Val.isE v) = true := by
                      simp [renderSafe, hocc]
                    exact format_marker_safe (Val.isE v) col c hrs hc sp.1 sp.2
                      (by rw [← hfmt]; simp [hexpr])
                rw [occursMissingList_append]
                have h1 := pyIter_safe sp.2 hp2 ps1 hiter
                have h2 := buildWhereVals_marker_safe col c rest hsv.2 hc rec_.1 rec_.2
                  (by rw [hrec])
                simp [h1, h2]
termination_by _ _ vs => sizeOf vs
decreasing_by all_goals (simp_wf; all_goals first
  | omega
  | (have hx := sizeOf_list_pos rest; omega))

end

/-- The heterogeneous `_build_where` over checked-safe descriptors with
marker-safe compilers never emits the marker among the parameters. -/
theorem buildWhere_marker_safe : ∀ (parts : List Part),
    (∀ p ∈ parts, checkedSafe p.expr = true ∧ compilerSafe p.compiler) →
    ∀ ss ps, buildWhere parts = some (ss, ps) → occursMissingList ps = false := by
  intro parts
  induction parts with
  | nil =>
    intro _ ss ps h
    simp only [buildWhere, Option.some.injEq, Prod.mk.injEq] at h
    rw [← h.2]; rfl
  | cons p rest ih =>
    intro hsafe ss ps h
    have hp := hsafe p (by simp)
    have hrest : ∀ q ∈ rest, checkedSafe q.expr = true ∧ compilerSafe q.compiler :=
      fun q hq => hsafe q (List.mem_cons_of_mem p hq)
    simp only [buildWhere] at h
    split at h
    · exact ih hrest ss ps h
    · split at h
      · exact ih hrest ss ps h
      · rename_i hmiss hskip
        split at h
        · exact absurd h (by simp)
        · rename_i sp hfmt
          split at h
          · exact absurd h (by simp)
          · rename_i ps1 hiter
            split at h
            · exact absurd h (by simp)
            · rename_i rec_ hrec
              simp only [Option.some.injEq, Prod.mk.injEq] at h
              rw [← h.2]
              have hp2 : occursMissing sp.2 = false := by
                by_cases hexpr : p.expr.isExpression = true
                · have hval : exprValueIsMissing p.expr = false := by
                    rcases hval : exprValueIsMissing p.expr with _ | _
                    · rfl
                    · exact absurd (by simp [hexpr, hval]) hskip
                  have hrs : renderSafe p.expr = true := by
                    have := hp.1
                    rw [checkedSafe] at this
                    simp only [hmiss, if_false, hexpr, if_true, hval,
                      Bool.false_or] at this
                    exact this
                  exact format_marker_safe p.expr p.column p.compiler hrs hp.2 sp.1 sp.2
                    (by rw [← hfmt]; simp [hexpr])
                · have hocc : occursMissing p.expr = false := by
                    have := hp.1
                    rw [checkedSafe] at this
                    simp only [hmiss, if_false, hexpr] at this
                    simpa using this
                  have hrs : renderSafe (Val.isE p.expr) = true := by
                    simp [renderSafe, hocc]
                  exact format_marker_safe (Val.isE p.expr) p.column p.compiler hrs hp.2
                    sp.1 sp.2 (by rw [← hfmt]; simp [hexpr])
              rw [occursMissingList_append]
              have h1 := pyIter_safe sp.2 hp2 ps1 hiter
              have h2 := ih hrest rec_.1 rec_.2 (by rw [hrec])
              simp [h1, h2]

/-- C6 fails: `is_not` delegates to an inner expression without any
`MISSING` check, so `is_not(is_(MISSING))` survives `_build_where` and
places the omitted-marker sentinel itself in the bind-parameter list. -/
theorem nested_marker_in_parameters :
    buildWhere [⟨"c", Val.isNot (Val.isE Val.missing), none, none⟩] =
      some (["NOT " ++ ("c" ++ " IS ?")], [Val.missing]) ∧
    Val.missing ∈ ([Val.missing] : List Val) := by
  constructor
  · simp [buildWhere, format, Val.isExpression, exprValueIsMissing, isMissingB,
          pyIter, _compile]
  · simp

/-- C6 amended: the sentinel never appears among the bind parameters of
`_build_where` provided the marker occurs only at positions the builder
checks — as a whole descriptor value or as a direct sub-value of a
combinator — and every supplied compiler preserves marker-freeness; it can
appear when nested elsewhere (e.g. `is_not(is_(MISSING))`).
`_build_insert`/`_build_set` never emit the sentinel for descriptors whose
value is the bare marker or marker-free, under the same compiler
condition. -/
theorem marker_free_parameters :
    (∀ (parts : List Part) (ss : List String) (ps : List Val),
      (∀ p ∈ parts, checkedSafe p.expr = true ∧ compilerSafe p.compiler) →
      buildWhere parts = some (ss, ps) → Val.missing ∉ ps) ∧
    (∀ parts : List Part,
      (∀ p ∈ parts, (p.expr = Val.missing ∨ occursMissing p.expr = false) ∧
        compilerSafe p.compiler) →
      Val.missing ∉ (buildInsert parts).2 ∧ Val.missing ∉ (buildSet parts).2) := by
  constructor
  · intro parts ss ps hsafe h
    exact not_mem_of_occursMissingList_false ps (buildWhere_marker_safe parts hsafe ss ps h)
  · intro parts hsafe
    have key : ∀ q ∈ (parts.filter fun p => !isMissingB p.expr).map
        (fun p => _compile p.expr p.compiler), q ≠ Val.missing := by
      intro q hq
      rcases List.mem_map.mp hq with ⟨p, hp, rfl⟩
      rcases List.mem_filter.mp hp with ⟨hpmem, hpfilter⟩
      have hps := hsafe p hpmem
      have hocc : occursMissing p.expr = false := by
        rcases hps.1 with hmiss | hocc
        · rw [hmiss] at hpfilter; simp [isMissingB] at hpfilter
        · exact hocc
      have := compile_safe p.compiler hps.2 p.expr hocc
      intro heq
      rw [heq] at this
      simp [occursMissing] at this
    constructor
    · intro hmem
      exact key Val.missing (by simpa [buildInsert] using hmem) rfl
    · intro hmem
      exact key Val.missing (by simpa [buildSet] using hmem) rfl

/-- Witness for C6's amended theorem at concrete inputs: a combinator with
one live and one omitted branch for the WHERE side, and a plain value
descriptor for the INSERT/SET side. -/
theorem marker_free_parameters_witness :
    Val.missing ∉ ([Val.int 5] : List Val) ∧
    Val.missing ∉ (buildInsert [⟨"c", Val.int 7, none, none⟩]).2 := by
  constructor
  · exact marker_free_parameters.1 [⟨"c", Val.orE [Val.int 5, Val.missing], none, none⟩]
      ["c IS ?"] [Val.int 5]
      (by
        intro p hp
        simp only [List.mem_cons, List.not_mem_nil, or_false] at hp
        subst hp
        refine ⟨?_, trivial⟩
        simp [checkedSafe, renderSafe, checkedSafeList, isMissingB, Val.isExpression,
              exprValueIsMissing, occursMissing])
      (by
        simp [buildWhere, buildWhereVals, format, Val.isExpression, exprValueIsMissing,
              isMissingB, pyIter, _compile]
        decide)
  · exact (marker_free_parameters.2 [⟨"c", Val.int 7, none, none⟩]
      (by
        intro p hp
        simp only [List.mem_cons, List.not_mem_nil, or_false] at hp
        subst hp
        exact ⟨Or.inr (by simp [occursMissing]), trivial⟩)).1

end LeagueRegistrar
